import Mathlib

set_option maxRecDepth 100000

/-!
# Verification of the g4f-sdk resilience/orchestration layer

Shallow embedding of the core subsystems of the repository:
provider selection (g4f_sdk/providers.py), history trimming and the
resilient request loops (ai/chat.py, g4f_sdk/chat.py), the retry
decorator (g4f_sdk/utils.py), response cleaning (ai/chat.py), and the
model/provider enrichment profiles (ai/models_info.py).

Conventions of the embedding:
* Python `float` configuration values are modelled as exact fractions
  (`PyFloat`, or rationals where no evaluation is needed); the Python
  `int(...)` truncation toward zero is `PyFloat.toPyInt` / `pyInt08`.
* Message-size measurement (`_count_length` / `_count_tokens`, which
  sum a per-message size, either characters of the content or tokenizer
  tokens) is abstracted as a per-message measure `μ : Msg → Nat`; the
  character-mode instance is `charMeasure`.
* Backend calls are oracles: a function from the index of the call (or
  of the attempt) to its outcome, so a run of a loop is a pure function
  of its oracle.
* `asyncio.sleep` and backend invocations are recorded as events so
  that theorems can speak about backoff sleeps and call counts.
-/

/-! ## Data model: messages -/

/-- A chat message: a Python dict `{role, content, images?}`.  An absent
or `None` images entry is modelled as `[]`. -/
structure Msg where
  role : String
  content : String
  images : List String := []
  deriving Repr, DecidableEq

/-- The declared model support of a provider, i.e. the value of
`getattr(provider_class, "model", None)` stored in the provider cache:
a string, a list of strings, `None`, or any other Python value. -/
inductive PModels where
  | pnone
  | pstr (s : String)
  | plist (l : List String)
  | pother
  deriving Repr, DecidableEq

/-! ## Python numeric and string primitives -/

/-- A Python float modelled as an exact fraction `num / den` with a
positive denominator (every float is such a fraction). -/
structure PyFloat where
  num : Int
  den : Int
  den_pos : 0 < den := by decide

/-- Python `f >= 1.0` for a float modelled as a fraction. -/
def PyFloat.geOne (q : PyFloat) : Bool := q.den ≤ q.num

/-- Python `int(f)`: truncation toward zero. -/
def PyFloat.toPyInt (q : PyFloat) : Int := q.num.tdiv q.den

/-- Python `int(m * f)` for an int `m` and a float `f`: the exact
product truncated toward zero. -/
def PyFloat.scaleInt (m : Int) (q : PyFloat) : Int := (m * q.num).tdiv q.den

/-- Python `int(m * 0.8)`: multiplication by the float `0.8` modelled as
the rational 4/5, then truncation toward zero. -/
def pyInt08 (m : Int) : Int := (4 * m).tdiv 5

/-- Python list slice `l[-k:]` for `k ≥ 1`: the last `k` elements. -/
def lastN (k : Nat) (l : List α) : List α := l.drop (l.length - k)

/-- Substring containment on character lists (Python `pat in s`). -/
def containsSub (s pat : List Char) : Bool :=
  match s with
  | [] => pat.isEmpty
  | _ :: t => pat.isPrefixOf s || containsSub t pat

/-- Python `s.lower()` on a character list. -/
def lowerChars (s : String) : List Char := s.toList.map Char.toLower

/-! ## Provider selection (g4f_sdk/providers.py, ProviderManager) -/

/-- Function `check_model_support` from `_select_provider`: the provider's cached
`models` entry is compared with the requested model — string equality
for a string, membership for a list, `False` otherwise. -/
def check_model_support (cache : List (String × PModels)) (model p : String) : Bool :=
  match cache.lookup p with
  | some (.pstr s) => s == model
  | some (.plist l) => l.contains model
  | _ => false

/-- Python `random.choice(l)` abstracted: an arbitrary index `k` reduced
modulo the length.  For a non-empty list this is always a member. -/
def pick (l : List String) (k : Nat) : String := l.getD (k % l.length) ""

/-- The no-hint path of `_select_provider`: the tiered candidate search
over the provider cache and the configured preferred providers,
followed by a pseudo-random choice. -/
def selectNoHint (cache : List (String × PModels)) (preferred : List String)
    (model : String) (k : Nat) : Except String String :=
  let working := cache.map Prod.fst
  if working.isEmpty then
    .error "No working providers found in the cache."
  else
    let c1 := preferred.filter (fun p => working.contains p && check_model_support cache model p)
    let c2 := if c1.isEmpty then working.filter (check_model_support cache model) else c1
    let c3 := if c2.isEmpty && !preferred.isEmpty then preferred.filter (working.contains ·) else c2
    let c4 := if c3.isEmpty then working else c3
    .ok (pick c4 k)

/-- Embeds `ProviderManager._select_provider` (cache freshness elided: the
cache is an explicit argument).  Note that the hint test is Python
truthiness (`if provider_hint:`), so an empty-string hint falls through
to the no-hint path. -/
def selectProvider (cache : List (String × PModels)) (preferred : List String)
    (model : String) (hint : Option String) (k : Nat) : Except String String :=
  match hint with
  | some h =>
    if h ≠ "" then
      if (cache.map Prod.fst).contains h then .ok h
      else .error "Specified provider is not available or not working."
    else selectNoHint cache preferred model k
  | none => selectNoHint cache preferred model k

/-- Tier 1 of the claimed selection order: configured preferred
providers that are working and declare support for the model. -/
def tier1 (cache : List (String × PModels)) (preferred : List String) (model : String) : List String :=
  preferred.filter (fun p => (cache.map Prod.fst).contains p && check_model_support cache model p)

/-- Tier 2: all working providers that declare support for the model. -/
def tier2 (cache : List (String × PModels)) (model : String) : List String :=
  (cache.map Prod.fst).filter (check_model_support cache model)

/-- Tier 3: configured preferred providers that are working. -/
def tier3 (cache : List (String × PModels)) (preferred : List String) : List String :=
  preferred.filter ((cache.map Prod.fst).contains ·)

/-- Tier 4: all working providers. -/
def tier4 (cache : List (String × PModels)) : List String :=
  cache.map Prod.fst

/-- The first non-empty set in the ordered tiers of the claimed
selection algorithm. -/
def firstNonEmptyTier (cache : List (String × PModels)) (preferred : List String)
    (model : String) : List String :=
  if !(tier1 cache preferred model).isEmpty then tier1 cache preferred model
  else if !(tier2 cache model).isEmpty then tier2 cache model
  else if !(tier3 cache preferred).isEmpty then tier3 cache preferred
  else tier4 cache

theorem pick_mem (l : List String) (k : Nat) (h : l ≠ []) : pick l k ∈ l := by
  have hlen : 0 < l.length := List.length_pos.mpr h
  have hk : k % l.length < l.length := Nat.mod_lt _ hlen
  have : pick l k = l.get ⟨k % l.length, hk⟩ := by
    simp [pick, List.getD_eq_getElem?_getD, List.getElem?_eq_getElem hk]
  rw [this]
  exact l.get_mem _ _

theorem selectNoHint_eq_pick (cache : List (String × PModels)) (preferred : List String)
    (model : String) (k : Nat) (hw : cache.map Prod.fst ≠ []) :
    selectNoHint cache preferred model k =
      .ok (pick (firstNonEmptyTier cache preferred model) k) := by
  have hwe : (tier4 cache).isEmpty = false := by
    simp [tier4, List.isEmpty_iff, hw]
  have hdef : selectNoHint cache preferred model k =
      (if (tier4 cache).isEmpty then
        .error "No working providers found in the cache."
      else
        let c1 := tier1 cache preferred model
        let c2 := if c1.isEmpty then tier2 cache model else c1
        let c3 := if c2.isEmpty && !preferred.isEmpty then tier3 cache preferred else c2
        let c4 := if c3.isEmpty then tier4 cache else c3
        .ok (pick c4 k)) := rfl
  rw [hdef, firstNonEmptyTier]
  simp only [hwe, Bool.false_eq_true, if_false]
  by_cases h1 : tier1 cache preferred model = []
  · by_cases h2 : tier2 cache model = []
    · by_cases hp : preferred = []
      · subst hp
        simp [List.isEmpty_iff, h1, h2, tier3]
      · by_cases h3 : tier3 cache preferred = []
        · simp [List.isEmpty_iff, h1, h2, h3, hp]
        · simp [List.isEmpty_iff, h1, h2, h3, hp]
    · simp [List.isEmpty_iff, h1, h2]
  · simp [List.isEmpty_iff, h1]

theorem firstNonEmptyTier_ne_nil (cache : List (String × PModels)) (preferred : List String)
    (model : String) (hw : cache.map Prod.fst ≠ []) :
    firstNonEmptyTier cache preferred model ≠ [] := by
  unfold firstNonEmptyTier
  split_ifs with h1 h2 h3
  · simpa [List.isEmpty_iff] using h1
  · simpa [List.isEmpty_iff] using h2
  · simpa [List.isEmpty_iff] using h3
  · simpa [tier4] using hw

/-- C1: with no provider hint, on a cache whose working-provider set is
non-empty, `_select_provider` returns a member of the first non-empty
set in the ordered tiers (preferred ∩ working ∩ supports-model,
working ∩ supports-model, preferred ∩ working, working); and it raises
ProviderError if and only if the working-provider set is empty. -/
theorem select_tiered_first_nonempty (cache : List (String × PModels)) (preferred : List String)
    (model : String) (k : Nat) :
    (cache.map Prod.fst ≠ [] →
      ∃ p, selectProvider cache preferred model none k = .ok p ∧
        p ∈ firstNonEmptyTier cache preferred model) ∧
    ((∃ e, selectProvider cache preferred model none k = .error e) ↔
      cache.map Prod.fst = []) := by
  constructor
  · intro hw
    refine ⟨pick (firstNonEmptyTier cache preferred model) k, ?_, ?_⟩
    · simpa [selectProvider] using selectNoHint_eq_pick cache preferred model k hw
    · exact pick_mem _ _ (firstNonEmptyTier_ne_nil cache preferred model hw)
  · constructor
    · rintro ⟨e, he⟩
      by_contra hne
      rw [show selectProvider cache preferred model none k =
            selectNoHint cache preferred model k from rfl,
          selectNoHint_eq_pick cache preferred model k hne] at he
      exact absurd he (by simp)
    · intro hnil
      refine ⟨"No working providers found in the cache.", ?_⟩
      simp [selectProvider, selectNoHint, hnil]

/-- Witness for `select_tiered_first_nonempty` on a concrete two-entry
cache: the tier containing a supporting provider is chosen from. -/
theorem select_tiered_first_nonempty_witness :
    ∃ p, selectProvider [("A", PModels.pstr "m"), ("B", PModels.pnone)] ["B"] "m" none 0 =
        .ok p ∧
      p ∈ firstNonEmptyTier [("A", PModels.pstr "m"), ("B", PModels.pnone)] ["B"] "m" :=
  (select_tiered_first_nonempty [("A", PModels.pstr "m"), ("B", PModels.pnone)] ["B"] "m" 0).1
    (by decide)

/-- C7 counterexample: the hint `""` is not None and is not a key of the
cache, yet `_select_provider` does not raise a ProviderError — the
`if provider_hint:` truthiness test treats an empty-string hint as no
hint, and another provider ("A") is silently substituted. -/
theorem select_hint_counterexample :
    selectProvider [("A", PModels.pnone)] [] "m" (some "") 0 = .ok "A" ∧
      "" ∉ ([("A", PModels.pnone)] : List (String × PModels)).map Prod.fst := by
  constructor
  · rfl
  · decide

/-- C7 amended: for every non-None and non-empty hint h: if h is not a
key of the provider cache the call raises ProviderError and never
substitutes another provider; if h is a key of the cache, h itself is
returned.  (An empty-string hint is Python-falsy and is instead treated
as no hint.) -/
theorem select_hint_exact (cache : List (String × PModels)) (preferred : List String)
    (model h : String) (k : Nat) (hne : h ≠ "") :
    (h ∉ cache.map Prod.fst →
      selectProvider cache preferred model (some h) k =
        .error "Specified provider is not available or not working.") ∧
    (h ∈ cache.map Prod.fst →
      selectProvider cache preferred model (some h) k = .ok h) := by
  constructor
  · intro hmem
    simp [selectProvider, hne, hmem]
  · intro hmem
    simp [selectProvider, hne, hmem]

/-- Witness for `select_hint_exact`: an absent hint "B" raises, a
present hint "A" is returned unchanged. -/
theorem select_hint_exact_witness :
    (selectProvider [("A", PModels.pnone)] [] "m" (some "B") 0 =
      .error "Specified provider is not available or not working.") ∧
    (selectProvider [("A", PModels.pnone)] [] "m" (some "A") 0 = .ok "A") :=
  ⟨(select_hint_exact [("A", PModels.pnone)] [] "m" "B" 0 (by decide)).1 (by decide),
   (select_hint_exact [("A", PModels.pnone)] [] "m" "A" 0 (by decide)).2 (by decide)⟩

/-! ## History trimming -/

/-- Embeds `_count_length` (ai/chat.py) / the total of `_count_tokens`
(g4f_sdk/chat.py): the sum of a per-message size measure. -/
def countLength (μ : Msg → Nat) (msgs : List Msg) : Nat := (msgs.map μ).sum

/-- The character-based measure (`use_char_limit` mode):
`len(str(msg.get("content", "")))`. -/
def charMeasure (m : Msg) : Nat := m.content.length

/-- The while-loop of `_trim_history` (ai/chat.py, reduction factor
below 1.0): drop the oldest remaining non-system message while the
measured size of system-plus-remaining exceeds the target and messages
remain. -/
def dropOldestOver (μ : Msg → Nat) (target : Int) (sysL : List Msg) : List Msg → List Msg
  | [] => []
  | m :: rest =>
    if (countLength μ (sysL ++ m :: rest) : Int) > target then
      dropOldestOver μ target sysL rest
    else m :: rest

/-- Embeds `ChatHandler._trim_history` (ai/chat.py): returns the new history
and the success flag.  A no-op when the history already fits; otherwise
the leading system message (if any) is set aside, the rest is reduced
either to the last `int(rf)` messages (rf ≥ 1.0) or by dropping oldest
messages until the size is at most `int(max_length * rf)` (rf < 1.0);
success iff the result fits `max_length`. -/
def trimHistory (μ : Msg → Nat) (rf : PyFloat) (maxLength : Int) (msgs : List Msg) :
    List Msg × Bool :=
  if (countLength μ msgs : Int) ≤ maxLength then (msgs, true)
  else
    let sysL : List Msg :=
      match msgs with
      | m :: _ => if m.role = "system" then [m] else []
      | [] => []
    let others := if sysL.isEmpty then msgs else msgs.tail
    let others' :=
      if rf.geOne then lastN rf.toPyInt.toNat others
      else dropOldestOver μ (PyFloat.scaleInt maxLength rf) sysL others
    let result := sysL ++ others'
    (result, (countLength μ result : Int) ≤ maxLength)

/-- The while-loop of `ChatSession._trim_history` (g4f_sdk/chat.py):
pops oldest messages while the running total (which still includes the
set-aside system prompt's size) exceeds the limit. -/
def sessionDrop (μ : Msg → Nat) (maxT : Int) : Nat → List Msg → List Msg
  | _, [] => []
  | total, m :: rest =>
    if (total : Int) > maxT then sessionDrop μ maxT (total - μ m) rest
    else m :: rest

/-- Embeds `ChatSession._trim_history` (g4f_sdk/chat.py): a no-op when the
history fits `max_history_tokens`; otherwise the leading system prompt
is popped, oldest messages are dropped while the total exceeds the
limit, and the system prompt is re-inserted at index 0. -/
def trimSession (μ : Msg → Nat) (maxT : Int) (hist : List Msg) : List Msg :=
  let total := countLength μ hist
  if (total : Int) ≤ maxT then hist
  else
    let sysL : List Msg :=
      match hist with
      | m :: _ => if m.role = "system" then [m] else []
      | [] => []
    let rest := if sysL.isEmpty then hist else hist.tail
    sysL ++ sessionDrop μ maxT total rest

theorem dropOldestOver_suffix (μ : Msg → Nat) (t : Int) (sysL : List Msg) :
    ∀ l : List Msg, dropOldestOver μ t sysL l <:+ l
  | [] => by simp [dropOldestOver]
  | m :: rest => by
    rw [dropOldestOver]
    split
    · exact (dropOldestOver_suffix μ t sysL rest).trans (List.suffix_cons m rest)
    · exact List.suffix_refl _

theorem lastN_suffix (k : Nat) (l : List α) : lastN k l <:+ l :=
  List.drop_suffix _ _

theorem sessionDrop_suffix (μ : Msg → Nat) (maxT : Int) :
    ∀ (total : Nat) (l : List Msg), sessionDrop μ maxT total l <:+ l
  | _, [] => by simp [sessionDrop]
  | total, m :: rest => by
    rw [sessionDrop]
    split
    · exact (sessionDrop_suffix μ maxT (total - μ m) rest).trans (List.suffix_cons m rest)
    · exact List.suffix_refl _

/-- C5 counterexample: a history whose element 0 has role "system" but
which contains a second system message later on.  Trimming (reduction
factor 1/2, budget 100) drops that second system message: trimming does
not remove only non-system messages on such histories. -/
theorem trim_removes_second_system_counterexample :
    (trimHistory charMeasure ⟨1, 2, by decide⟩ 10
        [⟨"system", "a", []⟩, ⟨"user", "bbbbbbbbbbbb", []⟩, ⟨"system", "cccccc", []⟩]).1 =
      [⟨"system", "a", []⟩] ∧
    (⟨"system", "cccccc", []⟩ : Msg) ∈
        [(⟨"system", "a", []⟩ : Msg), ⟨"user", "bbbbbbbbbbbb", []⟩, ⟨"system", "cccccc", []⟩] ∧
    (⟨"system", "cccccc", []⟩ : Msg).role = "system" ∧
    (⟨"system", "cccccc", []⟩ : Msg) ∉
      (trimHistory charMeasure ⟨1, 2, by decide⟩ 10
        [⟨"system", "a", []⟩, ⟨"user", "bbbbbbbbbbbb", []⟩, ⟨"system", "cccccc", []⟩]).1 := by
  refine ⟨?_, ?_, rfl, ?_⟩
  · rfl
  · simp
  · decide

/-- C5 amended: for every history satisfying the data-model invariant —
the head message has role "system" and is the only system message — and
for every reduction factor and budget, both trimmers
(`ChatHandler._trim_history` and `ChatSession._trim_history`) keep that
system message at index 0, remove only (non-system) messages from the
tail, and hence preserve the invariant. -/
theorem trim_preserves_leading_system
    (μ : Msg → Nat) (rf : PyFloat) (ml maxT : Int) (m0 : Msg) (tl : List Msg)
    (hrole : m0.role = "system") (hinv : ∀ m ∈ tl, m.role ≠ "system") :
    ∃ t1 t2,
      (trimHistory μ rf ml (m0 :: tl)).1 = m0 :: t1 ∧ t1 <:+ tl ∧
        (∀ m ∈ t1, m.role ≠ "system") ∧
      trimSession μ maxT (m0 :: tl) = m0 :: t2 ∧ t2 <:+ tl ∧
        (∀ m ∈ t2, m.role ≠ "system") := by
  have h1 : ∃ t1, (trimHistory μ rf ml (m0 :: tl)).1 = m0 :: t1 ∧ t1 <:+ tl := by
    rw [trimHistory]
    split
    · exact ⟨tl, rfl, List.suffix_refl tl⟩
    · simp only [hrole, if_pos, List.isEmpty_cons, List.tail_cons]
      split
      · exact ⟨lastN rf.toPyInt.toNat tl, by simp, lastN_suffix _ _⟩
      · exact ⟨dropOldestOver μ (PyFloat.scaleInt ml rf) [m0] tl, by simp,
          dropOldestOver_suffix _ _ _ _⟩
  have h2 : ∃ t2, trimSession μ maxT (m0 :: tl) = m0 :: t2 ∧ t2 <:+ tl := by
    rw [trimSession]
    split
    · exact ⟨tl, rfl, List.suffix_refl tl⟩
    · simp only [hrole, if_pos, List.isEmpty_cons, List.tail_cons]
      exact ⟨sessionDrop μ maxT (countLength μ (m0 :: tl)) tl, by simp,
        sessionDrop_suffix _ _ _ _⟩
  obtain ⟨t1, e1, s1⟩ := h1
  obtain ⟨t2, e2, s2⟩ := h2
  exact ⟨t1, t2, e1, s1, fun m hm => hinv m (s1.subset hm),
    e2, s2, fun m hm => hinv m (s2.subset hm)⟩

/-- Witness for `trim_preserves_leading_system`: a concrete over-budget
history with a leading system prompt. -/
theorem trim_preserves_leading_system_witness :
    ∃ t1 t2,
      (trimHistory charMeasure ⟨1, 2, by decide⟩ 3
          [⟨"system", "s", []⟩, ⟨"user", "uuuu", []⟩]).1 = ⟨"system", "s", []⟩ :: t1 ∧
        t1 <:+ [⟨"user", "uuuu", []⟩] ∧ (∀ m ∈ t1, m.role ≠ "system") ∧
      trimSession charMeasure 3 [⟨"system", "s", []⟩, ⟨"user", "uuuu", []⟩] =
          ⟨"system", "s", []⟩ :: t2 ∧
        t2 <:+ [⟨"user", "uuuu", []⟩] ∧ (∀ m ∈ t2, m.role ≠ "system") :=
  trim_preserves_leading_system charMeasure ⟨1, 2, by decide⟩ 3 3
    ⟨"system", "s", []⟩ [⟨"user", "uuuu", []⟩] rfl (by decide)

/-! ## The retry decorator (g4f_sdk/utils.py, async_retry) -/

/-- Outcome of one invocation of the wrapped coroutine: a value, or a
raised exception tagged with whether it is an instance of
`retryable_exceptions` and an identifier. -/
inductive CallRes (α : Type) where
  | ok (v : α)
  | exc (retryable : Bool) (eid : Nat)
  deriving Repr, DecidableEq

/-- Result of running the wrapper: the returned value or the raised
exception, the number of invocations of the wrapped function, and the
sequence of back-off sleeps in order. -/
structure RetryRes (α : Type) where
  result : Except (Bool × Nat) α
  calls : Nat
  sleeps : List ℚ
  deriving Repr

/-- The `for attempt in range(retries + 1)` loop of `async_retry`'s
wrapper, with `remaining = retries - attempt` (so `remaining = 0` is
the last attempt, on which a retryable error is re-raised instead of
slept on).  `cur` is `current_delay`, multiplied by `backoff_factor`
after each sleep. -/
def retryLoop (op : Nat → CallRes α) (backoff : ℚ) :
    Nat → ℚ → Nat → RetryRes α
  | attempt, cur, remaining =>
    match op attempt with
    | .ok v => ⟨.ok v, 1, []⟩
    | .exc true eid =>
      match remaining with
      | 0 => ⟨.error (true, eid), 1, []⟩
      | r + 1 =>
        let rest := retryLoop op backoff (attempt + 1) (cur * backoff) r
        ⟨rest.result, rest.calls + 1, cur :: rest.sleeps⟩
    | .exc false eid => ⟨.error (false, eid), 1, []⟩

/-- Embeds `async_retry(retries, delay, backoff_factor, retryable_exceptions)`
applied to an operation. -/
def async_retry (retries : Nat) (delay backoff : ℚ) (op : Nat → CallRes α) : RetryRes α :=
  retryLoop op backoff 0 delay retries

theorem retryLoop_ok (op : Nat → CallRes α) (backoff : ℚ) :
    ∀ (remaining attempt : Nat) (cur : ℚ) (v : α),
      (∀ j < remaining, ∃ e, op (attempt + j) = .exc true e) →
      op (attempt + remaining) = .ok v →
      retryLoop op backoff attempt cur remaining =
        ⟨.ok v, remaining + 1, (List.range remaining).map (fun k => cur * backoff ^ k)⟩
  | 0, attempt, cur, v, _, hok => by
    simp only [Nat.add_zero] at hok
    rw [retryLoop]
    simp [hok]
  | r + 1, attempt, cur, v, hfail, hok => by
    obtain ⟨e0, he0⟩ := hfail 0 (Nat.succ_pos r)
    simp only [Nat.add_zero] at he0
    have ih := retryLoop_ok op backoff r (attempt + 1) (cur * backoff) v
      (fun j hj => by
        simpa [Nat.add_assoc, Nat.add_comm 1 j] using hfail (j + 1) (Nat.succ_lt_succ hj))
      (by simpa [Nat.add_assoc, Nat.add_comm 1 r] using hok)
    rw [retryLoop]
    simp only [he0, ih]
    have hsl : cur :: (List.range r).map (fun k => cur * backoff * backoff ^ k) =
        (List.range (r + 1)).map (fun k => cur * backoff ^ k) := by
      rw [List.range_succ_eq_map, List.map_cons, List.map_map]
      congr 1
      · rw [pow_zero, mul_one]
      · refine List.map_congr_left ?_
        intro a _
        simp only [Function.comp_apply, pow_succ]
        ring
    rw [hsl]

theorem retryLoop_all_fail (op : Nat → CallRes α) (backoff : ℚ) (eid : Nat → Nat) :
    ∀ (remaining attempt : Nat) (cur : ℚ),
      (∀ j ≤ remaining, op (attempt + j) = .exc true (eid (attempt + j))) →
      retryLoop op backoff attempt cur remaining =
        ⟨.error (true, eid (attempt + remaining)), remaining + 1,
          (List.range remaining).map (fun k => cur * backoff ^ k)⟩
  | 0, attempt, cur, hfail => by
    have h0 := hfail 0 (Nat.le_refl 0)
    simp only [Nat.add_zero] at h0 ⊢
    rw [retryLoop]
    simp [h0]
  | r + 1, attempt, cur, hfail => by
    have h0 := hfail 0 (Nat.zero_le _)
    simp only [Nat.add_zero] at h0
    have ih := retryLoop_all_fail op backoff eid r (attempt + 1) (cur * backoff)
      (fun j hj => by
        simpa [Nat.add_assoc, Nat.add_comm 1 j] using hfail (j + 1) (Nat.succ_le_succ hj))
    rw [retryLoop]
    simp only [h0, ih]
    have hsl : cur :: (List.range r).map (fun k => cur * backoff * backoff ^ k) =
        (List.range (r + 1)).map (fun k => cur * backoff ^ k) := by
      rw [List.range_succ_eq_map, List.map_cons, List.map_map]
      congr 1
      · rw [pow_zero, mul_one]
      · refine List.map_congr_left ?_
        intro a _
        simp only [Function.comp_apply, pow_succ]
        ring
    rw [hsl]
    have : attempt + 1 + r = attempt + (r + 1) := by omega
    rw [this]

/-- C6: behaviour of the `async_retry` wrapper.  (i) A retryable error
on each of the first `retries` calls followed by a success: the wrapped
operation is invoked exactly `retries + 1` times, the success value is
returned, and the sleep after the k-th failed attempt is
`delay * backoff_factor ^ k`, with no sleep after the final attempt.
(ii) A non-retryable error on the first call: exactly one invocation
and the error propagates immediately.  (iii) A retryable error on every
attempt: the last error is raised after `retries + 1` invocations. -/
theorem async_retry_behavior (retries : Nat) (delay backoff : ℚ) (op : Nat → CallRes α) :
    (∀ v, (∀ i < retries, ∃ e, op i = .exc true e) → op retries = .ok v →
      async_retry retries delay backoff op =
        ⟨.ok v, retries + 1, (List.range retries).map (fun k => delay * backoff ^ k)⟩) ∧
    (∀ e, op 0 = .exc false e →
      async_retry retries delay backoff op = ⟨.error (false, e), 1, []⟩) ∧
    (∀ eid : Nat → Nat, (∀ i ≤ retries, op i = .exc true (eid i)) →
      async_retry retries delay backoff op =
        ⟨.error (true, eid retries), retries + 1,
          (List.range retries).map (fun k => delay * backoff ^ k)⟩) := by
  refine ⟨?_, ?_, ?_⟩
  · intro v hfail hok
    have := retryLoop_ok op backoff retries 0 delay v
      (fun j hj => by simpa using hfail j hj) (by simpa using hok)
    simpa [async_retry] using this
  · intro e h0
    rw [async_retry, retryLoop]
    cases retries <;> simp [h0]
  · intro eid hfail
    have := retryLoop_all_fail op backoff eid retries 0 delay
      (fun j hj => by simpa using hfail j hj)
    simpa [async_retry] using this

/-- Witness for `async_retry_behavior`: three concrete operations with
`retries = 2`, `delay = 1`, `backoff_factor = 2`. -/
theorem async_retry_behavior_witness :
    (async_retry 2 1 2 (fun i => if i < 2 then CallRes.exc true i else CallRes.ok (42 : Nat)) =
      ⟨.ok 42, 2 + 1, (List.range 2).map (fun k => (1 : ℚ) * 2 ^ k)⟩) ∧
    (async_retry 2 1 2 (fun _ => (CallRes.exc false 7 : CallRes Nat)) =
      ⟨.error (false, 7), 1, []⟩) ∧
    (async_retry 2 1 2 (fun i => (CallRes.exc true i : CallRes Nat)) =
      ⟨.error (true, 2), 2 + 1, (List.range 2).map (fun k => (1 : ℚ) * 2 ^ k)⟩) :=
  ⟨(async_retry_behavior 2 1 2 _).1 42 (fun i hi => ⟨i, by simp [hi]⟩) (by norm_num),
   (async_retry_behavior 2 1 2 _).2.1 7 rfl,
   (async_retry_behavior 2 1 2 _).2.2 id (fun i _ => rfl)⟩

/-! ## The resilient request loop (ai/chat.py, ChatHandler.generate) -/

/-- Python's regex `\s` class (ASCII): space, tab, newline, carriage
return, vertical tab, form feed. -/
def isPySpace (c : Char) : Bool :=
  c = ' ' || c = '\t' || c = '\n' || c = '\r' || c = '\x0b' || c = '\x0c'

/-- Numeric value of a digit run. -/
def digitsToNat (ds : List Char) : Nat :=
  ds.foldl (fun n c => 10 * n + (c.toNat - '0'.toNat)) 0

/-- Python `re.search(r'(\d+)\s*tokens', s)`: the leftmost digit run followed
by optional whitespace and the literal "tokens", as a number.  (A
proper suffix of a digit run is necessarily followed by another digit,
which can match neither `\s*` + "tokens", so scanning maximal runs left
to right is equivalent to the regex engine's backtracking search.) -/
def reSearchTokens : List Char → Option Nat
  | [] => none
  | c :: rest =>
    if c.isDigit then
      let run := (c :: rest).takeWhile Char.isDigit
      let after := (c :: rest).dropWhile Char.isDigit
      if ("tokens".toList).isPrefixOf (after.dropWhile isPySpace) then
        some (digitsToNat run)
      else reSearchTokens rest
    else reSearchTokens rest

/-- The provider-limit detection in `generate`'s exception handler:
`error_str = str(e).lower()` must contain "maximum context length" or
"exceeds maximum length"; then `re.search(r'(\d+)\s*tokens', error_str)`
is consulted, and on a match the captured number is the provider
limit. -/
def parseLimit (e : String) : Option Nat :=
  let ls := lowerChars e
  if containsSub ls ("maximum context length".toList) ||
      containsSub ls ("exceeds maximum length".toList) then
    reSearchTokens ls
  else none

/-- Observable events of one `generate` run, in order: a failed trim
iteration (no backend call), a backend invocation, and the
inter-attempt `asyncio.sleep(2)` backoff. -/
inductive Ev where
  | trimFail
  | call
  | sleep
  deriving Repr, DecidableEq

/-- One backend call outcome for the non-streaming loop: a response
with the given content string (possibly empty), a timeout of
`asyncio.wait_for`, or a raised exception with text `e`. -/
inductive GenOutcome where
  | content (s : String)
  | timeout
  | raise (e : String)

/-- Result of a `generate` run: the returned content (None on failure
or empty content), the session history, the session's `max_length`
after the call, and the event trace. -/
structure GenRes where
  result : Option String
  msgs : List Msg
  maxLength : Int
  events : List Ev
  deriving Repr, DecidableEq

/-- Prefix events onto a run result. -/
def addEv (es : List Ev) (g : GenRes) : GenRes := { g with events := es ++ g.events }

/-- The `for attempt in range(max_retries)` loop of
`ChatHandler.generate`, with `remaining` the number of loop iterations
left and `callIdx` indexing the backend oracle.  Per iteration: on trim
failure, `max_length` shrinks to `int(max_length * 0.8)`; below 500 the
call returns None, otherwise `continue` (which moves to the next
`attempt` and skips the backoff sleep).  Otherwise the backend is
invoked: non-empty content appends an assistant message and returns;
empty content returns None; a timeout or a generic error retries with a
backoff sleep unless this was the last attempt; an error carrying a
parsable "maximum context length" limit sets
`max_length = limit - 500` and continues without sleeping.
(The optional `clean_ad` post-processing is not requested here.) -/
def genLoop (μ : Msg → Nat) (rf : PyFloat) (backend : Nat → GenOutcome) :
    Nat → Nat → List Msg → Int → GenRes
  | 0, _, msgs, ml => ⟨none, msgs, ml, []⟩
  | r + 1, callIdx, msgs, ml =>
    let t := trimHistory μ rf ml msgs
    if t.2 then
      match backend callIdx with
      | .content s =>
        if s ≠ "" then ⟨some s, t.1 ++ [⟨"assistant", s, []⟩], ml, [.call]⟩
        else ⟨none, t.1, ml, [.call]⟩
      | .timeout =>
        addEv ([.call] ++ if r ≠ 0 then [.sleep] else [])
          (genLoop μ rf backend r (callIdx + 1) t.1 ml)
      | .raise e =>
        match parseLimit e with
        | some n =>
          addEv [.call] (genLoop μ rf backend r (callIdx + 1) t.1 ((n : Int) - 500))
        | none =>
          addEv ([.call] ++ if r ≠ 0 then [.sleep] else [])
            (genLoop μ rf backend r (callIdx + 1) t.1 ml)
    else
      let ml' := pyInt08 ml
      if ml' < 500 then ⟨none, t.1, ml', [.trimFail]⟩
      else addEv [.trimFail] (genLoop μ rf backend r callIdx t.1 ml')

/-- Step 2 of `generate`: `if msg:` (Python truthiness) appends the
user message, with the images attached when `if images:` is truthy. -/
def appendUserMsg (msgs : List Msg) (msg : Option String) (images : List String) : List Msg :=
  match msg with
  | some s => if s ≠ "" then msgs ++ [⟨"user", s, images⟩] else msgs
  | none => msgs

/-- Embeds `ChatHandler.generate`: append the user message, then run the
resilient request loop. -/
def generateRun (μ : Msg → Nat) (rf : PyFloat) (backend : Nat → GenOutcome)
    (maxRetries : Nat) (msgs : List Msg) (ml : Int)
    (msg : Option String) (images : List String) : GenRes :=
  genLoop μ rf backend maxRetries 0 (appendUserMsg msgs msg images) ml

/-- C3: if the backend call fails with an error whose text carries a
"maximum context length" signature with a parsable numeric token limit
`n`, then the session's `max_length` is set to `n - 500` and the loop
proceeds directly to the next attempt: the only event of the iteration
is the backend call, with no backoff sleep before the continuation. -/
theorem generate_ctx_limit_adapt (μ : Msg → Nat) (rf : PyFloat) (backend : Nat → GenOutcome)
    (r callIdx : Nat) (msgs : List Msg) (ml : Int) (e : String) (n : Nat)
    (htrim : (trimHistory μ rf ml msgs).2 = true)
    (hb : backend callIdx = .raise e)
    (hp : parseLimit e = some n) :
    genLoop μ rf backend (r + 1) callIdx msgs ml =
      addEv [.call]
        (genLoop μ rf backend r (callIdx + 1) (trimHistory μ rf ml msgs).1 ((n : Int) - 500)) := by
  rw [genLoop]
  simp only [htrim, if_true, hb, hp]

/-- Witness for `generate_ctx_limit_adapt`: the spec's example error
text "...exceeds maximum context length of 4096 tokens..." makes the
session budget 4096 - 500 with no sleep before the next attempt. -/
theorem generate_ctx_limit_adapt_witness :
    genLoop charMeasure ⟨1, 2, by decide⟩
        (fun _ => GenOutcome.raise "Error: exceeds maximum context length of 4096 tokens.")
        (0 + 1) 0 [] 100 =
      addEv [.call]
        (genLoop charMeasure ⟨1, 2, by decide⟩
          (fun _ => GenOutcome.raise "Error: exceeds maximum context length of 4096 tokens.")
          0 (0 + 1) (trimHistory charMeasure ⟨1, 2, by decide⟩ 100 []).1
          (((4096 : Nat) : Int) - 500)) :=
  generate_ctx_limit_adapt charMeasure ⟨1, 2, by decide⟩
    (fun _ => GenOutcome.raise "Error: exceeds maximum context length of 4096 tokens.")
    0 0 [] 100 "Error: exceeds maximum context length of 4096 tokens." 4096
    (by decide) rfl (by decide)

/-- C2 amended: when `_trim_history` fails inside `generate`'s loop,
`max_length` is multiplied by 0.8 and the iteration produces no backend
call and no backoff sleep; the request aborts with an absent result if
the shrunken `max_length` falls below the 500-unit floor, and otherwise
the loop proceeds to the next attempt — consuming one of the
`max_retries` attempts (so the request can also abort with the budget
still at or above the floor once the attempts are exhausted). -/
theorem generate_trim_failure_step (μ : Msg → Nat) (rf : PyFloat) (backend : Nat → GenOutcome)
    (r callIdx : Nat) (msgs : List Msg) (ml : Int)
    (htrim : (trimHistory μ rf ml msgs).2 = false) :
    genLoop μ rf backend (r + 1) callIdx msgs ml =
      (if pyInt08 ml < 500 then
        ⟨none, (trimHistory μ rf ml msgs).1, pyInt08 ml, [Ev.trimFail]⟩
      else
        addEv [Ev.trimFail]
          (genLoop μ rf backend r callIdx (trimHistory μ rf ml msgs).1 (pyInt08 ml))) := by
  rw [genLoop]
  simp only [htrim, Bool.false_eq_true, if_false]

/-- Witness for `generate_trim_failure_step`: a 700-character system
prompt against budget 625 (trimming cannot fit it); the budget shrinks
to `int(625 * 0.8) = 500` and the iteration consumes the attempt. -/
theorem generate_trim_failure_step_witness :
    genLoop charMeasure ⟨1, 2, by decide⟩ (fun _ => GenOutcome.content "ok") (0 + 1) 0
        [⟨"system", String.mk (List.replicate 700 'a'), []⟩, ⟨"user", "hi", []⟩] 625 =
      (if pyInt08 625 < 500 then
        ⟨none,
          (trimHistory charMeasure ⟨1, 2, by decide⟩ 625
            [⟨"system", String.mk (List.replicate 700 'a'), []⟩, ⟨"user", "hi", []⟩]).1,
          pyInt08 625, [Ev.trimFail]⟩
      else
        addEv [Ev.trimFail]
          (genLoop charMeasure ⟨1, 2, by decide⟩ (fun _ => GenOutcome.content "ok") 0 0
            (trimHistory charMeasure ⟨1, 2, by decide⟩ 625
              [⟨"system", String.mk (List.replicate 700 'a'), []⟩, ⟨"user", "hi", []⟩]).1
            (pyInt08 625))) :=
  generate_trim_failure_step charMeasure ⟨1, 2, by decide⟩ (fun _ => GenOutcome.content "ok")
    0 0 [⟨"system", String.mk (List.replicate 700 'a'), []⟩, ⟨"user", "hi", []⟩] 625
    (by decide)

/-- C2 counterexample: `generate` with `max_retries = 1`, a
700-character system prompt and budget 625.  Trimming fails once, the
budget shrinks to 500 (not below the floor), and the loop — whose
single attempt was consumed by the trim-failure iteration — exits: the
request aborts with an absent result, zero backend calls (although the
backend would have answered "ok"), and a final `max_length` of 500,
which never fell below the 500-unit floor.  This contradicts both "the
loop repeats without consuming a retry attempt" and "aborts ... once
max_length falls below the 500-unit floor". -/
theorem generate_trim_abort_counterexample :
    generateRun charMeasure ⟨1, 2, by decide⟩ (fun _ => GenOutcome.content "ok") 1
        [⟨"system", String.mk (List.replicate 700 'a'), []⟩] 625 (some "hi") [] =
      ⟨none, [⟨"system", String.mk (List.replicate 700 'a'), []⟩], 500, [Ev.trimFail]⟩ ∧
    Ev.call ∉ (generateRun charMeasure ⟨1, 2, by decide⟩ (fun _ => GenOutcome.content "ok") 1
        [⟨"system", String.mk (List.replicate 700 'a'), []⟩] 625 (some "hi") []).events ∧
    ¬((500 : Int) < 500) :=
  ⟨by decide, by decide, by decide⟩

/-- C4 counterexample: a `generate` call in which every attempt fails
(`max_retries = 1`, the backend raises "boom").  The call ends in total
failure (absent result), yet the history after the call is
`[user "hi"]`, not the original empty history: the user message
appended before the retry loop is not rolled back. -/
theorem generate_mutates_history_counterexample :
    generateRun charMeasure ⟨1, 2, by decide⟩ (fun _ => GenOutcome.raise "boom") 1 [] 1000
        (some "hi") [] =
      ⟨none, [⟨"user", "hi", []⟩], 1000, [Ev.call]⟩ ∧
    ([⟨"user", "hi", []⟩] : List Msg) ≠ [] :=
  ⟨by decide, by decide⟩

/-! ## The streaming loop (ai/chat.py, ChatHandler.stream_generate) -/

/-- The literal continuation instruction sent on a mid-stream retry. -/
def CONT_MSG : String := "[CONTINUE THE RESPONSE WITHOUT REPEATING THE PREVIOUS TEXT]"

/-- Result of a `stream_generate` run: the session history afterwards,
all yielded chunks in order, the message payloads sent to the backend,
and whether some attempt's stream completed. -/
structure StreamRes where
  msgs : List Msg
  yielded : List String
  sent : List (List Msg)
  completed : Bool
  deriving Repr, DecidableEq

/-- Prefix this attempt's yields and payload onto the rest of a run. -/
def prependStream (cs : List String) (payload : List Msg) (s : StreamRes) : StreamRes :=
  ⟨s.msgs, cs ++ s.yielded, payload :: s.sent, s.completed⟩

/-- The `for attempt in range(max_retries)` loop of
`ChatHandler.stream_generate`.  The stream oracle maps an attempt index
to the chunks its stream produces and whether the stream then completes
(False covers both an exception mid-stream and a timeout).  Per
iteration: a temporary history is built from the (unchanged) session
history — on a retry with accumulated text it gains the original user
message, an assistant message holding the accumulated text, and the
continuation instruction as the new user message; the temporary history
is trimmed (on trim failure the generator stops with the session
history restored); the payload is sent, the truthy chunks are yielded
and accumulated; on completion the original user message and one
assistant message with the full accumulated text are appended to the
session history. -/
def streamLoop (μ : Msg → Nat) (rf : PyFloat) (stream : Nat → List String × Bool)
    (origMsgs : List Msg) (msg : String) (images : List String) (ml : Int) :
    Nat → Nat → String → StreamRes
  | 0, _, _ => ⟨origMsgs, [], [], false⟩
  | r + 1, attempt, full =>
    let temp1 :=
      if full ≠ "" then
        origMsgs ++ [⟨"user", msg, images⟩, ⟨"assistant", full, []⟩]
      else origMsgs
    let finalMsg := if full ≠ "" then CONT_MSG else msg
    let temp2 := temp1 ++ [⟨"user", finalMsg, images⟩]
    let t := trimHistory μ rf ml temp2
    if t.2 then
      let payload := t.1
      let cs := (stream attempt).1.filter (fun c => c ≠ "")
      let full' := full ++ String.join cs
      if (stream attempt).2 then
        ⟨origMsgs ++ [⟨"user", msg, images⟩, ⟨"assistant", full', []⟩], cs, [payload], true⟩
      else
        prependStream cs payload
          (streamLoop μ rf stream origMsgs msg images ml r (attempt + 1) full')
    else ⟨origMsgs, [], [], false⟩

/-- Embeds `ChatHandler.stream_generate`. -/
def streamGenerate (μ : Msg → Nat) (rf : PyFloat) (stream : Nat → List String × Bool)
    (maxRetries : Nat) (msgs : List Msg) (ml : Int) (msg : String)
    (images : List String) : StreamRes :=
  streamLoop μ rf stream msgs msg images ml maxRetries 0 ""

/-- Histories reachable from `a` by repeated applications of
`ChatHandler._trim_history` (at arbitrary budgets): on the failure path
of `generate` the session history is only ever modified by trimming. -/
inductive TrimReach (μ : Msg → Nat) (rf : PyFloat) : List Msg → List Msg → Prop
  | refl (m : List Msg) : TrimReach μ rf m m
  | step (a b : List Msg) (ml : Int) :
      TrimReach μ rf a b → TrimReach μ rf a (trimHistory μ rf ml b).1

theorem TrimReach.trans {μ : Msg → Nat} {rf : PyFloat} {a b c : List Msg}
    (h1 : TrimReach μ rf a b) (h2 : TrimReach μ rf b c) : TrimReach μ rf a c := by
  induction h2 with
  | refl => exact h1
  | step x ml h ih => exact TrimReach.step _ _ ml ih

theorem streamLoop_incomplete_msgs (μ : Msg → Nat) (rf : PyFloat)
    (stream : Nat → List String × Bool) (origMsgs : List Msg) (msg : String)
    (images : List String) (ml : Int) :
    ∀ (r attempt : Nat) (full : String),
      (streamLoop μ rf stream origMsgs msg images ml r attempt full).completed = false →
      (streamLoop μ rf stream origMsgs msg images ml r attempt full).msgs = origMsgs
  | 0, _, _ => fun _ => rfl
  | r + 1, attempt, full => by
    intro hc
    revert hc
    rw [streamLoop]
    dsimp only
    split
    · split
      · split
        · intro hc
          simp at hc
        · intro hc
          simp only [prependStream] at hc ⊢
          exact streamLoop_incomplete_msgs μ rf stream origMsgs msg images ml
            r (attempt + 1) _ hc
      · intro _
        rfl
    · split
      · split
        · intro hc
          simp at hc
        · intro hc
          simp only [prependStream] at hc ⊢
          exact streamLoop_incomplete_msgs μ rf stream origMsgs msg images ml
            r (attempt + 1) _ hc
      · intro _
        rfl

theorem genLoop_fail_trimreach (μ : Msg → Nat) (rf : PyFloat) (backend : Nat → GenOutcome) :
    ∀ (r callIdx : Nat) (msgs : List Msg) (ml : Int),
      (genLoop μ rf backend r callIdx msgs ml).result = none →
      TrimReach μ rf msgs (genLoop μ rf backend r callIdx msgs ml).msgs
  | 0, _, msgs, ml => fun _ => TrimReach.refl msgs
  | r + 1, callIdx, msgs, ml => by
    intro hres
    have hstep : TrimReach μ rf msgs (trimHistory μ rf ml msgs).1 :=
      TrimReach.step _ _ ml (TrimReach.refl msgs)
    revert hres
    rw [genLoop]
    dsimp only
    split
    · split
      · split
        · intro hres
          simp at hres
        · intro _
          exact hstep
      · intro hres
        simp only [addEv] at hres ⊢
        exact hstep.trans (genLoop_fail_trimreach μ rf backend r (callIdx + 1) _ _ hres)
      · split
        · intro hres
          simp only [addEv] at hres ⊢
          exact hstep.trans (genLoop_fail_trimreach μ rf backend r (callIdx + 1) _ _ hres)
        · intro hres
          simp only [addEv] at hres ⊢
          exact hstep.trans (genLoop_fail_trimreach μ rf backend r (callIdx + 1) _ _ hres)
    · split
      · intro _
        exact hstep
      · intro hres
        simp only [addEv] at hres ⊢
        exact hstep.trans (genLoop_fail_trimreach μ rf backend r callIdx _ _ hres)

/-- C4 amended: only a fully successful attempt commits to the session
history.  For `stream_generate` this holds exactly: any run in which no
attempt's stream completes leaves the history unchanged (the temporary
per-attempt history is always restored).  For `generate` it does not
hold as stated: the user message is appended before the retry loop and
the history is trimmed in place, so on total failure the final history
is a trim-descendant of (original history + user message) — it never
gains an assistant message, but it is not the pre-call history. -/
theorem failure_history_frame (μ : Msg → Nat) (rf : PyFloat) :
    (∀ (stream : Nat → List String × Bool) (maxRetries : Nat) (msgs : List Msg) (ml : Int)
        (msg : String) (images : List String),
      (streamGenerate μ rf stream maxRetries msgs ml msg images).completed = false →
      (streamGenerate μ rf stream maxRetries msgs ml msg images).msgs = msgs) ∧
    (∀ (backend : Nat → GenOutcome) (maxRetries : Nat) (msgs : List Msg) (ml : Int)
        (msg : Option String) (images : List String),
      (generateRun μ rf backend maxRetries msgs ml msg images).result = none →
      TrimReach μ rf (appendUserMsg msgs msg images)
        (generateRun μ rf backend maxRetries msgs ml msg images).msgs) := by
  constructor
  · intro stream maxRetries msgs ml msg images hc
    exact streamLoop_incomplete_msgs μ rf stream msgs msg images ml maxRetries 0 "" hc
  · intro backend maxRetries msgs ml msg images hres
    exact genLoop_fail_trimreach μ rf backend maxRetries 0 _ ml hres

/-- Witness for `failure_history_frame`: a failing stream run leaves
the history untouched; a failing `generate` run leaves a
trim-descendant of history-plus-user-message. -/
theorem failure_history_frame_witness :
    ((streamGenerate charMeasure ⟨1, 2, by decide⟩ (fun _ => ([], false)) 1
        [⟨"system", "s", []⟩] 100 "hi" []).msgs = [⟨"system", "s", []⟩]) ∧
    TrimReach charMeasure ⟨1, 2, by decide⟩ [⟨"user", "hi", []⟩]
      (generateRun charMeasure ⟨1, 2, by decide⟩ (fun _ => GenOutcome.raise "boom") 1 [] 1000
        (some "hi") []).msgs :=
  ⟨(failure_history_frame charMeasure ⟨1, 2, by decide⟩).1 (fun _ => ([], false)) 1
      [⟨"system", "s", []⟩] 100 "hi" [] (by decide),
   (failure_history_frame charMeasure ⟨1, 2, by decide⟩).2 (fun _ => GenOutcome.raise "boom") 1
      [] 1000 (some "hi") [] (by decide)⟩

/-- The accumulated `full_response_content` at entry of attempt `i`:
the concatenation of the truthy chunks of all earlier attempts. -/
def accText (stream : Nat → List String × Bool) : Nat → String
  | 0 => ""
  | i + 1 => accText stream i ++ String.join ((stream i).1.filter (fun c => c ≠ ""))

/-- The truthy chunks of attempts `a, a+1, ..., a+n-1`, flattened in
order: everything the generator yields over those attempts. -/
def chunksFrom (stream : Nat → List String × Bool) : Nat → Nat → List String
  | _, 0 => []
  | a, n + 1 => ((stream a).1.filter (fun c => c ≠ "")) ++ chunksFrom stream (a + 1) n

/-- The continuation-shaped request of a retry entered with accumulated
text `accText stream i`: the prior history, the original user message,
an assistant message holding the accumulated partial text, and the
continuation instruction. -/
def contRequest (stream : Nat → List String × Bool) (origMsgs : List Msg) (msg : String)
    (images : List String) (i : Nat) : List Msg :=
  origMsgs ++ [⟨"user", msg, images⟩, ⟨"assistant", accText stream i, []⟩,
    ⟨"user", CONT_MSG, images⟩]

theorem accText_ne_empty_mono (stream : Nat → List String × Bool) :
    ∀ i j : Nat, i ≤ j → accText stream i ≠ "" → accText stream j ≠ "" := by
  intro i j hij hi
  induction j with
  | zero =>
    have : i = 0 := Nat.le_zero.mp hij
    subst this
    exact hi
  | succ j ih =>
    rcases Nat.lt_or_ge i (j + 1) with hlt | hge
    · have hj : accText stream j ≠ "" := ih (Nat.lt_succ_iff.mp hlt)
      intro hcon
      rw [accText] at hcon
      have hlen := congrArg String.length hcon
      rw [String.length_append] at hlen
      have h0 : ("" : String).length = 0 := rfl
      rw [h0] at hlen
      exact hj (String.ext (by
        have : (accText stream j).length = 0 := by omega
        cases hdata : (accText stream j).data with
        | nil => simp [hdata]
        | cons c cs =>
          rw [String.length, hdata] at this
          simp at this))
    · have : i = j + 1 := Nat.le_antisymm hij hge
      subst this
      exact hi

theorem streamLoop_continuation (μ : Msg → Nat) (rf : PyFloat)
    (stream : Nat → List String × Bool) (origMsgs : List Msg) (msg : String)
    (images : List String) (ml : Int) :
    ∀ (d a r : Nat) (full : String), d ≤ r → full = accText stream a →
      (∀ i, a ≤ i → i < a + d → (stream i).2 = false) →
      (stream (a + d)).2 = true →
      (∀ i, a ≤ i → i ≤ a + d → accText stream i ≠ "") →
      (∀ i, a ≤ i → i ≤ a + d →
        trimHistory μ rf ml (contRequest stream origMsgs msg images i) =
          (contRequest stream origMsgs msg images i, true)) →
      streamLoop μ rf stream origMsgs msg images ml (r + 1) a full =
        ⟨origMsgs ++ [⟨"user", msg, images⟩,
            ⟨"assistant", accText stream (a + d + 1), []⟩],
          chunksFrom stream a (d + 1),
          (List.range (d + 1)).map (fun i => contRequest stream origMsgs msg images (a + i)),
          true⟩
  | 0, a, r, full => by
    intro _ hfull hfail hsucc hne hfit
    subst hfull
    have hnea : accText stream a ≠ "" := hne a (Nat.le_refl a) (Nat.le_add_right a 0)
    have hfita := hfit a (Nat.le_refl a) (Nat.le_add_right a 0)
    simp only [Nat.add_zero] at hsucc ⊢
    rw [streamLoop]
    dsimp only
    simp only [if_pos hnea]
    have hshape : (origMsgs ++ [⟨"user", msg, images⟩,
        ⟨"assistant", accText stream a, []⟩]) ++ [⟨"user", CONT_MSG, images⟩] =
        contRequest stream origMsgs msg images a := by
      simp [contRequest]
    rw [hshape, hfita]
    dsimp only
    simp only [hsucc, if_true, ite_true]
    simp only [Nat.add_zero, Nat.zero_add, accText, chunksFrom, List.append_nil,
      List.range_succ, List.range_zero, List.nil_append, List.map_cons, List.map_nil]
  | d + 1, a, r, full => by
    intro hdr hfull hfail hsucc hne hfit
    subst hfull
    rcases r with _ | r'
    · omega
    have hnea : accText stream a ≠ "" := hne a (Nat.le_refl a) (Nat.le_add_right a _)
    have hfita := hfit a (Nat.le_refl a) (Nat.le_add_right a _)
    have hfaila : (stream a).2 = false := hfail a (Nat.le_refl a) (by omega)
    have ih := streamLoop_continuation μ rf stream origMsgs msg images ml d (a + 1) r'
      (accText stream a ++ String.join ((stream a).1.filter (fun c => c ≠ "")))
      (by omega) rfl
      (fun i h1 h2 => hfail i (by omega) (by omega))
      (by rw [show a + 1 + d = a + (d + 1) from by omega]; exact hsucc)
      (fun i h1 h2 => hne i (by omega) (by omega))
      (fun i h1 h2 => hfit i (by omega) (by omega))
    rw [streamLoop]
    dsimp only
    simp only [if_pos hnea]
    have hshape : (origMsgs ++ [⟨"user", msg, images⟩,
        ⟨"assistant", accText stream a, []⟩]) ++ [⟨"user", CONT_MSG, images⟩] =
        contRequest stream origMsgs msg images a := by
      simp [contRequest]
    rw [hshape, hfita]
    dsimp only
    simp only [hfaila, Bool.false_eq_true, if_false, ite_false]
    rw [ih]
    simp only [prependStream]
    rw [show a + 1 + d + 1 = a + (d + 1) + 1 from by omega]
    have eb : chunksFrom stream a (d + 1 + 1) =
        ((stream a).1.filter (fun c => c ≠ "")) ++ chunksFrom stream (a + 1) (d + 1) := by
      rw [chunksFrom]
    rw [eb]
    have ec : (List.range (d + 1 + 1)).map
          (fun i => contRequest stream origMsgs msg images (a + i)) =
        contRequest stream origMsgs msg images a ::
          (List.range (d + 1)).map (fun i => contRequest stream origMsgs msg images (a + 1 + i)) := by
      rw [List.range_succ_eq_map, List.map_cons, List.map_map]
      congr 1
      refine List.map_congr_left ?_
      intro x _
      simp only [Function.comp_apply, Nat.succ_eq_add_one]
      rw [show a + (x + 1) = a + 1 + x from by omega]
    rw [ec]
    simp only [if_true]


/-- C8 counterexample: a run whose first attempt fails mid-stream after
yielding the non-empty partial text "bbbbbb", against `max_length` 10
with reduction factor 0.7.  The continuation request the retry builds
(user "aaaaaa", assistant "bbbbbb", the continuation instruction — 71
characters) exceeds the budget, and `_trim_history` drops all three of
its messages (ratio target `int(10*0.7) = 7`, no system head, and the
emptied history fits), so the request actually sent on the retry is the
empty message list: it contains neither the prior user message, nor an
assistant message with the accumulated partial text, nor the
continuation instruction — refuting the claim that every retried
request consists of those. -/
theorem stream_retry_trimmed_counterexample :
    streamGenerate charMeasure ⟨7, 10, by decide⟩
        (fun i => if i = 0 then (["bbbbbb"], false) else (["ok"], true)) 2 [] 10 "aaaaaa" [] =
      ⟨[⟨"user", "aaaaaa", []⟩, ⟨"assistant", "bbbbbbok", []⟩],
        ["bbbbbb", "ok"],
        [[⟨"user", "aaaaaa", []⟩], []],
        true⟩ ∧
    ([] : List Msg) ≠
      [⟨"user", "aaaaaa", []⟩, ⟨"assistant", "bbbbbb", []⟩, ⟨"user", CONT_MSG, []⟩] :=
  ⟨by decide, by decide⟩

/-- C8 amended: a `stream_generate` run whose first `j ≥ 1` attempts
all fail mid-stream, with a non-empty partial text after the first
attempt, and whose attempt `j` completes — provided every constructed
request fits the budget, so that `_trim_history` leaves it unchanged
(over-budget continuation requests are trimmed before sending and can
lose the partial text and the instruction).  Then every retried request
is exactly the prior history plus the original user message, an
assistant message holding the text accumulated so far, and the
continuation instruction; and on completion exactly two messages are
appended to the session history — the original user message and one
assistant message holding the concatenation of all yielded fragments —
with no intermediate continuation exchange persisted.  The witness
instantiates the spec scenario (partial "Hello, ", then "world"). -/
theorem stream_continuation_every_retry (μ : Msg → Nat) (rf : PyFloat)
    (stream : Nat → List String × Bool) (origMsgs : List Msg) (msg : String)
    (images : List String) (ml : Int) (j r : Nat)
    (hj : 1 ≤ j) (hjr : j ≤ r)
    (hfail : ∀ i < j, (stream i).2 = false)
    (hsucc : (stream j).2 = true)
    (hp : accText stream 1 ≠ "")
    (hfit0 : trimHistory μ rf ml (origMsgs ++ [⟨"user", msg, images⟩]) =
      (origMsgs ++ [⟨"user", msg, images⟩], true))
    (hfitc : ∀ i, 1 ≤ i → i ≤ j →
      trimHistory μ rf ml (contRequest stream origMsgs msg images i) =
        (contRequest stream origMsgs msg images i, true)) :
    streamGenerate μ rf stream (r + 1) origMsgs ml msg images =
      ⟨origMsgs ++ [⟨"user", msg, images⟩, ⟨"assistant", accText stream (j + 1), []⟩],
        chunksFrom stream 0 (j + 1),
        (origMsgs ++ [⟨"user", msg, images⟩]) ::
          (List.range j).map (fun i => contRequest stream origMsgs msg images (1 + i)),
        true⟩ := by
  obtain ⟨j', rfl⟩ : ∃ u, j = u + 1 := ⟨j - 1, by omega⟩
  obtain ⟨r', rfl⟩ : ∃ u, r = u + 1 := ⟨r - 1, by omega⟩
  have hL := streamLoop_continuation μ rf stream origMsgs msg images ml j' 1 r'
    ("" ++ String.join ((stream 0).1.filter (fun c => c ≠ "")))
    (by omega) rfl
    (fun i h1 h2 => hfail i (by omega))
    (by rw [show 1 + j' = j' + 1 from by omega]; exact hsucc)
    (fun i h1 _ => accText_ne_empty_mono stream 1 i h1 hp)
    (fun i h1 h2 => hfitc i h1 (by omega))
  unfold streamGenerate
  rw [streamLoop]
  dsimp only
  simp only [ne_eq, not_true_eq_false, Bool.false_eq_true, if_false, ite_false,
    List.append_assoc, List.cons_append, List.nil_append]
  simp only [hfit0, hfail 0 (by omega), Bool.false_eq_true, if_false, ite_false]
  rw [hL]
  simp only [prependStream]
  rw [show 1 + j' + 1 = j' + 1 + 1 from by omega]
  have eb : chunksFrom stream 0 (j' + 1 + 1) =
      ((stream 0).1.filter (fun c => c ≠ "")) ++ chunksFrom stream (0 + 1) (j' + 1) := by
    rw [chunksFrom]
  rw [eb]
  simp only [Nat.zero_add, if_true, ne_eq]

/-- Witness for `stream_continuation_every_retry`: the spec scenario —
a stream failing after yielding "Hello, ", then completing with
"world" (j = 1 failures, max_retries = 2). -/
theorem stream_continuation_every_retry_witness :
    streamGenerate charMeasure ⟨1, 2, by decide⟩
        (fun i => if i = 0 then (["Hello, "], false) else (["world"], true)) (1 + 1)
        [] 1000 "hi" [] =
      ⟨[] ++ [⟨"user", "hi", []⟩,
          ⟨"assistant",
            accText (fun i => if i = 0 then (["Hello, "], false) else (["world"], true))
              (1 + 1), []⟩],
        chunksFrom (fun i => if i = 0 then (["Hello, "], false) else (["world"], true))
          0 (1 + 1),
        ([] ++ [⟨"user", "hi", []⟩]) ::
          (List.range 1).map (fun i =>
            contRequest (fun i => if i = 0 then (["Hello, "], false) else (["world"], true))
              [] "hi" [] (1 + i)),
        true⟩ :=
  stream_continuation_every_retry charMeasure ⟨1, 2, by decide⟩
    (fun i => if i = 0 then (["Hello, "], false) else (["world"], true)) [] "hi" [] 1000 1 1
    (by decide) (by decide)
    (fun i hi => by
      have : i = 0 := by omega
      subst this
      rfl)
    rfl (by decide) (by decide)
    (fun i h1 h2 => by
      have : i = 1 := by omega
      subst this
      decide)


/-! ## Response cleaning (ai/chat.py, ChatHandler._clean_response) -/

/-- Python `s.strip()`: leading and trailing whitespace removed. -/
def pyStrip (s : String) : String :=
  String.mk (((s.toList.dropWhile Char.isWhitespace).reverse.dropWhile
    Char.isWhitespace).reverse)

/-- Outcome of `_clean_response`'s secondary model call and JSON parse:
the call itself raised; `json.loads` raised (not valid JSON); the JSON
was not a dict, so `.get` raised (caught by the blanket handler); or a
parsed judgment with Python-truthy `has_ad` and an optional
`cleaned_text` entry. -/
inductive CleanOutcome where
  | callFailed
  | notJson
  | nonDict
  | judgment (hasAd : Bool) (cleaned : Option String)
  deriving Repr, DecidableEq

/-- Embeds `ChatHandler._clean_response` as a function of the response content
and the secondary call's outcome: on any failure it falls back to the
stripped original; on success it returns the stripped `cleaned_text`
(defaulting to the original) only when `has_ad` is truthy, else the
stripped original.  It is total: no outcome raises. -/
def cleanResponse (content : String) (o : CleanOutcome) : String :=
  match o with
  | .judgment hasAd cleaned =>
    if hasAd then pyStrip (cleaned.getD content) else pyStrip content
  | _ => pyStrip content

/-- C9 counterexample: with a failing secondary call and the original
content " x ", `_clean_response` returns "x" — the stripped text, not
the original, un-post-processed content. -/
theorem clean_response_strip_counterexample :
    cleanResponse " x " CleanOutcome.callFailed = "x" ∧ "x" ≠ " x " :=
  ⟨rfl, by decide⟩

/-- C9 amended: for every input, if the secondary call fails, returns
invalid JSON, or returns a non-dict judgment, `_clean_response` returns
the original content stripped of surrounding whitespace and raises no
exception; when the call succeeds, the content is replaced (again
stripped) by the judgment's cleaned text only if `has_ad` is true (a
missing `cleaned_text` defaults back to the original), and otherwise
the stripped original content is returned. -/
theorem clean_response_fallback (content : String) :
    (∀ o, o = CleanOutcome.callFailed ∨ o = CleanOutcome.notJson ∨ o = CleanOutcome.nonDict →
      cleanResponse content o = pyStrip content) ∧
    (∀ t, cleanResponse content (.judgment true (some t)) = pyStrip t) ∧
    (cleanResponse content (.judgment true none) = pyStrip content) ∧
    (∀ c, cleanResponse content (.judgment false c) = pyStrip content) := by
  refine ⟨?_, fun t => rfl, rfl, fun c => rfl⟩
  rintro o (rfl | rfl | rfl) <;> rfl

/-- Witness for `clean_response_fallback` at concrete inputs. -/
theorem clean_response_fallback_witness :
    cleanResponse " x " CleanOutcome.notJson = pyStrip " x " ∧
    cleanResponse " x " (CleanOutcome.judgment true (some " ad-free ")) = pyStrip " ad-free " ∧
    cleanResponse " x " (CleanOutcome.judgment false none) = pyStrip " x " :=
  ⟨(clean_response_fallback " x ").1 _ (Or.inr (Or.inl rfl)),
   (clean_response_fallback " x ").2.1 " ad-free ",
   (clean_response_fallback " x ").2.2.2 none⟩

/-! ## Model/provider enrichment (ai/models_info.py) -/

/-- A model/provider profile: the layered dict built by
`_discover_and_merge_models_info` (generic defaults, then model-level
static defaults, then provider-specific static overrides).  Every
profile carries `max_tokens`; `max_chars` is present only where the
static data provides it. -/
structure MPProfile where
  ptype : String
  maxTokens : Int
  supportsVision : Bool
  supportsWebSearch : Bool
  isStable : Bool
  maxChars : Option Int
  deriving Repr, DecidableEq

/-- Literal `GENERIC_DEFAULTS` of ai/models_info.py (the `notes` string is
elided). -/
def GENERIC_DEFAULTS : MPProfile :=
  ⟨"chat", 99999, true, true, false, none⟩

/-- One entry of the discovered model catalog: the g4f best provider
name and the per-provider profiles. -/
structure CatalogEntry where
  bestProvider : String
  providers : List (String × MPProfile)
  deriving Repr, DecidableEq

/-- The dict returned by `get_model_provider_info`. -/
structure ModelProviderInfo where
  modelName : String
  chosenProvider : Option String
  profile : MPProfile
  deriving Repr, DecidableEq

/-- Lookup `STATIC_ENRICHMENT_DATA.get(model).get('_default').get('default_provider')`:
no model of the static enrichment table has a `default_provider` key,
so this lookup always yields None. -/
def staticDefaultProvider (_ : String) : Option String := none

/-- Python truthiness of an optional string (None and "" are falsy). -/
def pyTruthy (o : Option String) : Bool :=
  match o with
  | some s => s ≠ ""
  | none => false

/-- The tail of `get_model_provider_info` (the `if not chosen_provider`
fallback and step 3): an un-truthy chosen provider is replaced by the
static default provider or the catalog's best provider, and the final
profile is the provider's entry or a copy of the generic defaults. -/
def finishInfo (modelName : String) (entry : CatalogEntry)
    (chosen0 : Option String) : ModelProviderInfo :=
  let chosen :=
    if pyTruthy chosen0 then chosen0
    else some ((staticDefaultProvider modelName).getD entry.bestProvider)
  let info :=
    match chosen with
    | some c => (entry.providers.lookup c).getD GENERIC_DEFAULTS
    | none => GENERIC_DEFAULTS
  ⟨modelName, chosen, info⟩

/-- Embeds `get_model_provider_info(model_name, provider_name)` over an
explicit discovered catalog and the list of valid g4f provider names
(`g4f.Provider.__all__`).  A model absent from the catalog yields the
generic defaults with `chosen_provider = provider_name or None`.  An
explicitly named provider missing from the model's provider dict is
forced with generic defaults when it is a valid g4f provider, and
otherwise falls back to the model's best provider. -/
def get_model_provider_info (catalog : List (String × CatalogEntry))
    (validProviders : List String) (modelName : String)
    (providerName : Option String) : ModelProviderInfo :=
  match catalog.lookup modelName with
  | none =>
    ⟨modelName, if pyTruthy providerName then providerName else none, GENERIC_DEFAULTS⟩
  | some entry =>
    match providerName with
    | some h =>
      if h ≠ "" then
        if (entry.providers.lookup h).isSome then finishInfo modelName entry (some h)
        else if validProviders.contains h then ⟨modelName, some h, GENERIC_DEFAULTS⟩
        else finishInfo modelName entry (some entry.bestProvider)
      else finishInfo modelName entry (some h)
    | none => finishInfo modelName entry none

/-- The session budget set by `ChatHandler._update_model_info`:
character mode (`max_chars`, default 30000) iff "pollinations" occurs
in the lowercased chosen provider name, token mode (`max_tokens`)
otherwise. -/
def sessionMaxLength (info : ModelProviderInfo) : Int :=
  let useChar :=
    containsSub (lowerChars (info.chosenProvider.getD "")) ("pollinations".toList)
  if useChar then (info.profile.maxChars).getD 30000 else info.profile.maxTokens

/-- The capability negotiation at the top of `ChatHandler.generate`: a
web-search request is dropped iff the profile lacks
`supports_web_search`. -/
def negotiateWebSearch (info : ModelProviderInfo) (ws : Bool) : Bool :=
  ws && info.profile.supportsWebSearch

/-- The image negotiation of `generate`: images are dropped iff present
and the profile lacks `supports_vision`. -/
def negotiateImages (info : ModelProviderInfo) (images : List String) : List String :=
  if images ≠ [] ∧ info.profile.supportsVision = false then [] else images

/-- C10 counterexample: for the model "m" absent from the catalog and
the explicitly named, gateway-known provider "PollinationsAI", the
returned profile is the generic-defaults profile, but the session's
effective budget is 30000 characters (the `max_chars` default of the
character-mode branch), not 99999 tokens. -/
theorem generic_profile_pollinations_counterexample :
    (get_model_provider_info [] ["PollinationsAI"] "m" (some "PollinationsAI")).profile =
      GENERIC_DEFAULTS ∧
    sessionMaxLength
        (get_model_provider_info [] ["PollinationsAI"] "m" (some "PollinationsAI")) =
      30000 ∧
    (30000 : Int) ≠ 99999 :=
  ⟨rfl, rfl, by decide⟩

/-- C10 amended: a model absent from the catalog, and an explicitly
named gateway-known provider with no enrichment entry for the model,
both get the generic-defaults profile (max_tokens = 99999,
supports_vision = True, supports_web_search = True, is_stable = False);
consequently the capability negotiation never drops a web-search or
images request for such pairs, and the session's effective budget is
99999 tokens — unless the chosen provider's name contains
"pollinations" (case-insensitively), in which case the budget is 30000
characters (the generic `max_chars` default). -/
theorem generic_defaults_profile (catalog : List (String × CatalogEntry))
    (validProviders : List String) (modelName : String) (h : Option String) :
    (catalog.lookup modelName = none →
      (get_model_provider_info catalog validProviders modelName h).profile =
        GENERIC_DEFAULTS) ∧
    (∀ entry hp, catalog.lookup modelName = some entry → h = some hp → hp ≠ "" →
      entry.providers.lookup hp = none → validProviders.contains hp = true →
      get_model_provider_info catalog validProviders modelName h =
        ⟨modelName, some hp, GENERIC_DEFAULTS⟩) ∧
    (∀ info : ModelProviderInfo, info.profile = GENERIC_DEFAULTS →
      (∀ ws, negotiateWebSearch info ws = ws) ∧
      (∀ images, negotiateImages info images = images) ∧
      info.profile.maxTokens = 99999 ∧
      sessionMaxLength info =
        (if containsSub (lowerChars (info.chosenProvider.getD "")) ("pollinations".toList)
          then 30000 else 99999)) := by
  refine ⟨?_, ?_, ?_⟩
  · intro hnone
    rw [get_model_provider_info, hnone]
  · intro entry hp hsome heq hne hmiss hvalid
    subst heq
    rw [get_model_provider_info, hsome]
    simp only [hne, hmiss, hvalid]
    simp [hne, hmiss, hvalid]
  · intro info hprof
    refine ⟨?_, ?_, ?_, ?_⟩
    · intro ws
      simp [negotiateWebSearch, hprof, GENERIC_DEFAULTS]
    · intro images
      simp [negotiateImages, hprof, GENERIC_DEFAULTS]
    · rw [hprof]
      rfl
    · rw [sessionMaxLength, hprof]
      split <;> rfl

/-- Witness for `generic_defaults_profile` at concrete inputs. -/
theorem generic_defaults_profile_witness :
    (get_model_provider_info [] ["X"] "m" none).profile = GENERIC_DEFAULTS ∧
    get_model_provider_info [("m", ⟨"Best", []⟩)] ["X"] "m" (some "X") =
      ⟨"m", some "X", GENERIC_DEFAULTS⟩ ∧
    (∀ ws, negotiateWebSearch ⟨"m", some "P", GENERIC_DEFAULTS⟩ ws = ws) :=
  ⟨(generic_defaults_profile [] ["X"] "m" none).1 rfl,
   (generic_defaults_profile [("m", ⟨"Best", []⟩)] ["X"] "m" (some "X")).2.1
     ⟨"Best", []⟩ "X" rfl rfl (by decide) rfl (by decide),
   ((generic_defaults_profile [] [] "" none).2.2 ⟨"m", some "P", GENERIC_DEFAULTS⟩ rfl).1⟩
